import Mathlib

/-!
Shallow embedding of the `w_result` crate (src/src/lib.rs): a result type
`WResult T W E` whose success variant carries an ordered list of warnings,
together with its combinator, collapse, logging and aggregation operations.
Rust `Vec<W>` is modelled as `List W`, Rust `Result<T, E>` as `RResult T E`,
and the `warn!` logging sink as an explicit list of rendered strings
threaded through the logging operations. Each definition is a direct
translation of the corresponding Rust function.
-/

namespace WRes

/-- Mirror of Rust `Result<T, E>` (used by the collapse operations). -/
inductive RResult (T E : Type) : Type where
  | Ok : T → RResult T E
  | Err : E → RResult T E
  deriving DecidableEq, Repr

/-- Mirror of `WResult<T, W, E>` (src/src/lib.rs lines 19-24): `WOk` holds the
success value and a vector of accumulated warnings, `WErr` holds the error. -/
inductive WResult (T W E : Type) : Type where
  | WOk : T → List W → WResult T W E
  | WErr : E → WResult T W E
  deriving DecidableEq, Repr

namespace WResult

variable {T W E U A : Type}

/-- `is_ok` (lines 28-33): true on the `WOk` variant. -/
def is_ok : WResult T W E → Bool
  | .WOk _ _ => true
  | .WErr _ => false

/-- `is_err` (lines 36-41), translated exactly as written in the source:
the `WOk` arm returns `true` and the `WErr` arm returns `false`. -/
def is_err : WResult T W E → Bool
  | .WOk _ _ => true
  | .WErr _ => false

/-- `is_warn_or_err` (lines 44-49). -/
def is_warn_or_err : WResult T W E → Bool
  | .WOk _ ws => ws.length > 0
  | .WErr _ => true

/-- `ok_discard` (lines 53-58). -/
def ok_discard : WResult T W E → Option T
  | .WOk t _ => some t
  | .WErr _ => none

/-- `err` (lines 62-67). -/
def err : WResult T W E → Option E
  | .WOk _ _ => none
  | .WErr e => some e

/-- `ok_werr` (lines 72-80): the `WOk` arm matches on `ws.len()`. -/
def ok_werr : WResult T W E → Option T
  | .WOk t ws =>
    match ws.length with
    | 0 => some t
    | _ + 1 => none
  | .WErr _ => none

/-- `map` (lines 83-90). -/
def map (r : WResult T W E) (op : T → U) : WResult U W E :=
  match r with
  | .WOk t ws => .WOk (op t) ws
  | .WErr e => .WErr e

/-- `map_err` (lines 93-100). -/
def map_err (r : WResult T W E) (op : E → U) : WResult T W U :=
  match r with
  | .WOk t ws => .WOk t ws
  | .WErr e => .WErr (op e)

/-- `map_warnings` (lines 103-110): each warning is transformed in order. -/
def map_warnings (r : WResult T W E) (op : W → U) : WResult T U E :=
  match r with
  | .WOk t ws => .WOk t (ws.map op)
  | .WErr e => .WErr e

/-- `and` (lines 114-125): on double success, `self`'s warnings are extended
with `res`'s warnings (`ws0.extend(ws1)`). -/
def and (r : WResult T W E) (res : WResult U W E) : WResult U W E :=
  match r with
  | .WOk _ ws0 =>
    match res with
    | .WOk t ws1 => .WOk t (ws0 ++ ws1)
    | .WErr e => .WErr e
  | .WErr e => .WErr e

/-- `and_then` (lines 129-136). -/
def and_then (r : WResult T W E) (op : T → List W → WResult U A E) :
    WResult U A E :=
  match r with
  | .WOk t ws => op t ws
  | .WErr e => .WErr e

/-- `or` (lines 139-144). -/
def or (r : WResult T W E) (res : WResult T W U) : WResult T W U :=
  match r with
  | .WOk t ws => .WOk t ws
  | .WErr _ => res

/-- `result_discard` (lines 159-164). -/
def result_discard : WResult T W E → RResult T E
  | .WOk t _ => .Ok t
  | .WErr e => .Err e

/-- `result_werr_res` (lines 170-181): `ws.truncate(1)` is `ws.take 1` and the
subsequent `ws.pop()` is `getLast?` of the truncated vector. -/
def result_werr_res : WResult T W E → RResult T (RResult W E)
  | .WOk t ws =>
    match (ws.take 1).getLast? with
    | some w => .Err (.Ok w)
    | none => .Ok t
  | .WErr e => .Err (.Err e)

/-- `unwrap_discard_or` (lines 185-190). -/
def unwrap_discard_or (r : WResult T W E) (optb : T) : T :=
  match r with
  | .WOk t _ => t
  | .WErr _ => optb

/-- `unwrap_or_werr` (lines 193-201): the `WOk` arm matches on `ws.len()`,
returning `optb` when the length is `0` and `t` otherwise. -/
def unwrap_or_werr (r : WResult T W E) (optb : T) : T :=
  match r with
  | .WOk t ws =>
    match ws.length with
    | 0 => optb
    | _ + 1 => t
  | .WErr _ => optb

/-- `unwrap_discard_or_else` (lines 206-213). -/
def unwrap_discard_or_else (r : WResult T W E) (op : E → T) : T :=
  match r with
  | .WOk t _ => t
  | .WErr e => op e

/-- `err_werr` (lines 220-228), on `WResult<T, E, E>`. -/
def err_werr : WResult T E E → Option E
  | .WOk _ ws => (ws.take 1).getLast?
  | .WErr e => some e

/-- `result_werr` (lines 232-243), on `WResult<T, E, E>`: truncate the
warnings to one element, pop it, and treat it as the error if present. -/
def result_werr : WResult T E E → RResult T E
  | .WOk t ws =>
    match (ws.take 1).getLast? with
    | some w => .Err w
    | none => .Ok t
  | .WErr e => .Err e

/-- `unwrap_or_else_werr` (lines 247-260), on `WResult<T, E, E>`. -/
def unwrap_or_else_werr (r : WResult T E E) (op : E → T) : T :=
  match r with
  | .WOk t ws =>
    match (ws.take 1).getLast? with
    | some w => op w
    | none => t
  | .WErr e => op e

/-- The `for w in ws { warn!("{}", w) }` loop of the logging operations:
each warning is rendered and appended to the diagnostic sink in order.
`sink` is the list of writes performed so far. -/
def log_warnings (render : W → String) (ws : List W) (sink : List String) :
    List String :=
  match ws with
  | [] => sink
  | w :: rest => log_warnings render rest (sink ++ [render w])

/-- `ok_log` (lines 268-278): the returned value paired with the list of sink
writes performed before returning. -/
def ok_log (render : W → String) : WResult T W E → Option T × List String
  | .WOk t ws => (some t, log_warnings render ws [])
  | .WErr _ => (none, [])

/-- `result_log` (lines 282-292). -/
def result_log (render : W → String) :
    WResult T W E → RResult T E × List String
  | .WOk t ws => (.Ok t, log_warnings render ws [])
  | .WErr e => (.Err e, [])

/-- `unwrap_log_or` (lines 296-306). -/
def unwrap_log_or (render : W → String) (r : WResult T W E) (optb : T) :
    T × List String :=
  match r with
  | .WOk t ws => (t, log_warnings render ws [])
  | .WErr _ => (optb, [])

/-- `unwrap_log_or_else` (lines 310-322). -/
def unwrap_log_or_else (render : W → String) (r : WResult T W E)
    (op : E → T) : T × List String :=
  match r with
  | .WOk t ws => (t, log_warnings render ws [])
  | .WErr e => (op e, [])

/-- `From<Result<T, E>>` (lines 325-332). -/
def from_result : RResult T E → WResult T W E
  | .Ok t => .WOk t []
  | .Err e => .WErr e

/-- The adapter loop of `FromIterator::from_iter` (lines 334-372),
specialised to the list builder: walk the input in order, collecting success
values and accumulating their warnings; at the first `WErr` stop and record
the error, leaving the rest of the input unconsumed. Returns the collected
values, the accumulated warnings, and the error if one was hit. -/
def from_iter_go : List (WResult A W E) → List A × List W × Option E
  | [] => ([], [], none)
  | .WOk t ws :: rest =>
    let r := from_iter_go rest
    (t :: r.1, ws ++ r.2.1, r.2.2)
  | .WErr e :: _ => ([], [], some e)

/-- `FromIterator::from_iter` (lines 334-372) with the list builder: if the
adapter recorded an error the aggregate is `WErr e` (warnings discarded),
otherwise `WOk` of the built list and the accumulated warnings. -/
def from_iter (l : List (WResult A W E)) : WResult (List A) W E :=
  match from_iter_go l with
  | (_, _, some e) => .WErr e
  | (ts, warns, none) => .WOk ts warns

end WResult

open WResult

/-- On a list of length at most one (the result of `truncate(1)`) prefixed by
a head, `getLast?` returns that head. -/
theorem take_one_getLast (w : A) (ws : List A) :
    ((w :: ws).take 1).getLast? = some w := by
  simp [List.take]

/-- The sink after the logging loop is the starting sink followed by one
rendered write per warning, in order. -/
theorem log_warnings_eq (render : A → String) (ws : List A)
    (sink : List String) :
    log_warnings render ws sink = sink ++ ws.map render := by
  induction ws generalizing sink with
  | nil => simp [log_warnings]
  | cons w rest ih => simp [log_warnings, ih]

/-- C1: evaluation of the translated `is_err` at the failing input: on
`WErr 0` it returns `false`, and on `WOk 0 []` it returns `true`, contrary to
its own documentation, which says it is true exactly on `WErr`. -/
theorem is_err_wrong_on_both_variants :
    (WResult.WErr (T := Nat) (W := Nat) 0).is_err = false ∧
      (WResult.WOk (W := Nat) (E := Nat) 0 []).is_err = true := by
  constructor <;> rfl

/-- C2: `unwrap_or_werr` returns the success value exactly on a `WOk` with a
non-empty warning list; on a `WOk` with no warnings it returns the default,
and on `WErr` it returns the default. -/
theorem unwrap_or_werr_spec (T W E : Type) (t optb : T) (w : W) (ws : List W)
    (e : E) :
    (WResult.WOk (E := E) t (w :: ws)).unwrap_or_werr optb = t ∧
      (WResult.WOk (E := E) t ([] : List W)).unwrap_or_werr optb = optb ∧
      (WResult.WErr (T := T) (W := W) e).unwrap_or_werr optb = optb := by
  refine ⟨?_, rfl, rfl⟩
  simp [unwrap_or_werr]

/-- C3: `result_werr` returns `Ok t` on a clean success, `Err` of the first
warning on a degraded success (all later warnings are discarded), and
`Err e` on `WErr e`. -/
theorem result_werr_spec (T E : Type) (t : T) (w e : E) (ws : List E) :
    (WResult.WOk t ([] : List E)).result_werr = RResult.Ok t ∧
      (WResult.WOk t (w :: ws)).result_werr = RResult.Err w ∧
      (WResult.WErr (T := T) (W := E) e).result_werr = RResult.Err e := by
  refine ⟨rfl, ?_, rfl⟩
  simp [result_werr, take_one_getLast]

/-- C4: aggregating a sequence containing no failure yields `WOk` of the
success values in input order together with the concatenation, in input
order, of all the warning lists. -/
theorem from_iter_all_ok (A W E : Type) (l : List (A × List W)) :
    from_iter (E := E) (l.map fun p => WResult.WOk p.1 p.2) =
      WResult.WOk (l.map Prod.fst) (l.map Prod.snd).flatten := by
  have h : from_iter_go (E := E) (l.map fun p => WResult.WOk p.1 p.2) =
      (l.map Prod.fst, (l.map Prod.snd).flatten, none) := by
    induction l with
    | nil => rfl
    | cons p rest ih => simp [from_iter_go, ih]
  simp [from_iter, h]

/-- C5: aggregating a sequence whose first failure is `WErr e` yields
`WErr e`, discarding the warnings of every preceding success, and the result
does not depend on the elements after that failure. -/
theorem from_iter_first_failure (A W E : Type) (p : List (A × List W))
    (e : E) (rest : List (WResult A W E)) :
    from_iter ((p.map fun q => WResult.WOk q.1 q.2) ++
      WResult.WErr e :: rest) = WResult.WErr e := by
  have h : from_iter_go ((p.map fun q => WResult.WOk q.1 q.2) ++
      WResult.WErr e :: rest) =
      (([] : List A), ([] : List W), some e) ∨
      ∃ ts ws, from_iter_go ((p.map fun q => WResult.WOk q.1 q.2) ++
        WResult.WErr e :: rest) = (ts, ws, some e) := by
    right
    induction p with
    | nil => exact ⟨[], [], rfl⟩
    | cons q qs ih =>
      obtain ⟨ts, ws, hw⟩ := ih
      exact ⟨q.1 :: ts, q.2 ++ ws, by simp [from_iter_go, hw]⟩
  rcases h with h | ⟨ts, ws, h⟩ <;> simp [from_iter, h]

/-- C6: `and` concatenates warnings left-then-right on double success,
discards the left warnings when the right side fails, and short-circuits on
a failing left side. -/
theorem and_spec (T U W E : Type) (t0 : T) (t1 : U) (ws0 ws1 : List W)
    (e0 e1 : E) :
    (WResult.WOk t0 ws0).and (WResult.WOk (E := E) t1 ws1) =
        WResult.WOk t1 (ws0 ++ ws1) ∧
      (WResult.WOk t0 ws0).and (WResult.WErr (T := U) (W := W) e1) =
        WResult.WErr e1 ∧
      ∀ res : WResult U W E,
        (WResult.WErr (T := T) (W := W) e0).and res = WResult.WErr e0 := by
  exact ⟨rfl, rfl, fun res => rfl⟩

/-- C7: `result_werr_res` returns `Ok t` on a clean success, `Err (Ok w1)`
for the first warning on a degraded success, and `Err (Err e)` on failure. -/
theorem result_werr_res_spec (T W E : Type) (t : T) (w : W) (ws : List W)
    (e : E) :
    (WResult.WOk (E := E) t ([] : List W)).result_werr_res = RResult.Ok t ∧
      (WResult.WOk (E := E) t (w :: ws)).result_werr_res =
        RResult.Err (RResult.Ok w) ∧
      (WResult.WErr (T := T) (W := W) e).result_werr_res =
        RResult.Err (RResult.Err e) := by
  refine ⟨rfl, ?_, rfl⟩
  simp [result_werr_res, take_one_getLast]

/-- C8: each logging collapse applied to a `WOk` with warning list `ws`
performs exactly the writes `ws.map render` — one write per warning, in the
list's order — and applied to a `WErr` performs no writes. -/
theorem logging_writes_spec (T W E : Type) (render : W → String) (t optb : T)
    (ws : List W) (e : E) (op : E → T) :
    (ok_log render (WResult.WOk (E := E) t ws)).2 = ws.map render ∧
      (ok_log (T := T) render (WResult.WErr (W := W) e)).2 = [] ∧
      (result_log render (WResult.WOk (E := E) t ws)).2 = ws.map render ∧
      (result_log (T := T) render (WResult.WErr (W := W) e)).2 = [] ∧
      (unwrap_log_or render (WResult.WOk (E := E) t ws) optb).2 =
        ws.map render ∧
      (unwrap_log_or render (WResult.WErr (W := W) e) optb).2 = [] ∧
      (unwrap_log_or_else render (WResult.WOk (E := E) t ws) op).2 =
        ws.map render ∧
      (unwrap_log_or_else render (WResult.WErr (W := W) e) op).2 = [] := by
  refine ⟨?_, rfl, ?_, rfl, ?_, rfl, ?_, rfl⟩ <;>
    simp [ok_log, result_log, unwrap_log_or, unwrap_log_or_else,
      log_warnings_eq]

/-- C9: `map` with the identity function leaves a `WOk` unchanged (value and
warnings both preserved), and on `WErr` the result is `WErr e` for every
mapping function, so the function is never consulted. -/
theorem map_id_and_err (T U W E : Type) (t : T) (ws : List W) (e : E) :
    (WResult.WOk (E := E) t ws).map id = WResult.WOk t ws ∧
      (∀ op : T → U, (WResult.WErr (W := W) e).map op = WResult.WErr e) ∧
      ∀ op op' : T → U,
        (WResult.WErr (W := W) e).map op =
          (WResult.WErr (W := W) e).map op' := by
  exact ⟨rfl, fun op => rfl, fun op op' => rfl⟩

/-- C10: `ok_werr` returns `some t` exactly when the value is `WOk t []`;
any warning, or a failure, yields `none`. -/
theorem ok_werr_spec (T W E : Type) (r : WResult T W E) (t : T) :
    r.ok_werr = some t ↔ r = WResult.WOk t [] := by
  constructor
  · intro h
    cases r with
    | WOk t' ws =>
      cases ws with
      | nil =>
        simp only [ok_werr, List.length_nil, Option.some.injEq] at h
        rw [h]
      | cons w rest => simp [ok_werr] at h
    | WErr e => simp [ok_werr] at h
  · intro h
    rw [h]
    rfl

end WRes
